import Mathlib

/-!
# SSHChic — verification of the concurrent vanity-key search engine

A shallow embedding of `src/main.rs` of the SSHChic repository: the worker
loop `find_ssh_keys`, the shared atomic state (`running`, `COUNTER`), the
derivation functions `get_authorized_key` / `get_fingerprint`, the rate
estimator `exp_moving_average`, and the monitor tick of `main`.

External collaborators (SHA-256, the compiled regex, the OpenSSH private-key
serializer) are parameters of the model, bundled in `Ext`; the base64 text
encoding and the SSH wire format of an Ed25519 public key are embedded
concretely since claims depend on their structure.

Concurrency is modelled as a small-step interpreter driven by a scheduler
command list: each command either lets one worker perform its next atomic
action (supplying the nondeterministic generated key and the success of a
file write) or fires the Ctrl-C handler.
-/

namespace SSHChic

/-- Raw bytes of an Ed25519 public key (32 bytes), each byte a `Nat`. -/
abbrev Key := List Nat

/-! ## Base64 (standard alphabet, `=` padding) as used by
`base64::engine::general_purpose::STANDARD` and by the ssh-key crate. -/

/-- The standard base64 alphabet. -/
def b64Alphabet : List Char :=
  "ABCDEFGHIJKLMNOPQRSTUVWXYZabcdefghijklmnopqrstuvwxyz0123456789+/".data

/-- The base64 character for a 6-bit value. -/
def b64Char (n : Nat) : Char := b64Alphabet.getD n 'A'

/-- Encode a byte list into base64 characters, three input bytes per
four output characters, padding the final partial group with `=`. -/
def base64Chunks : List Nat → List Char
  | [] => []
  | [b1] => [b64Char (b1 / 4), b64Char (b1 % 4 * 16), '=', '=']
  | [b1, b2] =>
      [b64Char (b1 / 4), b64Char (b1 % 4 * 16 + b2 / 16), b64Char (b2 % 16 * 4), '=']
  | b1 :: b2 :: b3 :: rest =>
      b64Char (b1 / 4) :: b64Char (b1 % 4 * 16 + b2 / 16) ::
        b64Char (b2 % 16 * 4 + b3 / 64) :: b64Char (b3 % 64) :: base64Chunks rest

/-- Standard base64 encoding of a byte list, as a string. -/
def base64Encode (bs : List Nat) : String := String.mk (base64Chunks bs)

/-! ## SSH wire format and the two derived representations -/

/-- Big-endian 32-bit length field of the SSH wire format. -/
def u32be (n : Nat) : List Nat :=
  [n / 2 ^ 24 % 256, n / 2 ^ 16 % 256, n / 2 ^ 8 % 256, n % 256]

/-- The ASCII bytes of the algorithm name `ssh-ed25519`. -/
def sshEd25519Bytes : List Nat := [115, 115, 104, 45, 101, 100, 50, 53, 53, 49, 57]

/-- SSH wire encoding of `KeyData::Ed25519`: length-prefixed algorithm name
followed by the length-prefixed 32 raw key bytes. -/
def ed25519KeyBlob (k : Key) : List Nat :=
  u32be 11 ++ sshEd25519Bytes ++ u32be 32 ++ k

/-- `get_authorized_key` of `main.rs`: the OpenSSH `authorized_keys` line
`ssh-ed25519 <base64 blob> Generated by SSHChic` produced by
`ssh_key::PublicKey::new(KeyData::Ed25519(..), "Generated by SSHChic").to_string()`. -/
def get_authorized_key (k : Key) : String :=
  "ssh-ed25519 " ++ base64Encode (ed25519KeyBlob k) ++ " Generated by SSHChic"

/-- External collaborators of the search engine, treated as opaque functions:
the SHA-256 digest, the compiled regex's `is_match`, and the OpenSSH
private-key serializer `PrivateKey::to_openssh`. -/
structure Ext where
  sha256 : List Nat → List Nat
  rmatch : String → Bool
  privEncode : Key → String

/-- `get_fingerprint` of `main.rs`: standard base64 of the SHA-256 digest of
the 32 raw public-key bytes. -/
def get_fingerprint (E : Ext) (k : Key) : String :=
  base64Encode (E.sha256 k)

/-! ## CLI arguments -/

/-- The `Args` structure of `main.rs` (CLI flags). -/
structure Args where
  regex : String
  insensitive : Bool
  streaming : Bool
  fingerprint : Bool

/-- The pattern handed to `Regex::new`: `(?i)` is prepended when the
case-insensitive flag is set. -/
def regex_str (a : Args) : String :=
  if a.insensitive then "(?i)" ++ a.regex else a.regex

/-- The match test of one worker iteration: the pattern is tested against the
fingerprint when `args.fingerprint` is set, against the authorized-key line
otherwise. -/
def matchedKey (E : Ext) (a : Args) (k : Key) : Bool :=
  if a.fingerprint then E.rmatch (get_fingerprint E k)
  else E.rmatch (get_authorized_key k)

/-! ## The concurrent search engine as a small-step system

Each worker runs the loop of `find_ssh_keys`; its control point between two
atomic actions is a `Phase`. One `Cmd` of the scheduler performs one atomic
action of one worker (or fires the Ctrl-C handler), so every interleaving of
the threads is some command list. The generated key and the success of a
`fs::write` call are nondeterministic inputs carried by the command. -/

/-- Control point of one worker inside the `find_ssh_keys` loop. -/
inductive Phase where
  /-- about to evaluate `running.load()` at loop entry -/
  | atCheck : Phase
  /-- about to execute `COUNTER.fetch_add(1)` -/
  | atIncr : Phase
  /-- about to generate a keypair and test it against the pattern -/
  | atGen : Phase
  /-- matched, non-streaming: about to `fs::write("id_ed25519", ..)` -/
  | atWritePriv : Key → Phase
  /-- about to `fs::write("id_ed25519.pub", ..)` -/
  | atWritePub : Key → Phase
  /-- about to execute `running.store(false)` and `break` -/
  | atStore : Phase
  /-- the loop exited -/
  | done : Phase
  /-- the thread died from a panic (`expect` on a failed write);
      only this thread stops, the process keeps going -/
  | panicked : Phase
deriving DecidableEq, Repr

/-- The shared state plus every worker's control point. `writes` is the log
of `fs::write` calls (file name, content) made so far. -/
structure SysState where
  running : Bool
  counter : Int
  writes : List (String × String)
  workers : List Phase
deriving DecidableEq, Repr

/-- Two's-complement wrap-around of `i64`, the type of `COUNTER`. -/
def wrapI64 (x : Int) : Int := (x + 2 ^ 63) % 2 ^ 64 - 2 ^ 63

/-- Replace worker `i`'s phase. -/
def setW (s : SysState) (i : Nat) (p : Phase) : SysState :=
  { s with workers := s.workers.set i p }

/-- One scheduler command: let worker `i` take its next atomic action
(`k` is the key its generator would produce, `writeOk` whether its file
write would succeed), or fire the Ctrl-C handler. -/
inductive Cmd where
  | work : Nat → Key → Bool → Cmd
  | interrupt : Cmd
deriving DecidableEq, Repr

/-- One atomic action of worker `i` currently at phase `p`, following the
body of `find_ssh_keys` line by line. -/
def workerStep (E : Ext) (a : Args) (s : SysState) (i : Nat) (p : Phase)
    (k : Key) (writeOk : Bool) : SysState :=
  match p with
  | .atCheck => if s.running then setW s i .atIncr else setW s i .done
  | .atIncr => { setW s i .atGen with counter := wrapI64 (s.counter + 1) }
  | .atGen =>
      if matchedKey E a k then
        if a.streaming then setW s i .atCheck else setW s i (.atWritePriv k)
      else setW s i .atCheck
  | .atWritePriv k0 =>
      if writeOk then
        { setW s i (.atWritePub k0) with
            writes := s.writes ++ [("id_ed25519", E.privEncode k0)] }
      else setW s i .panicked
  | .atWritePub k0 =>
      if writeOk then
        { setW s i .atStore with
            writes := s.writes ++ [("id_ed25519.pub", get_authorized_key k0)] }
      else setW s i .panicked
  | .atStore => { setW s i .done with running := false }
  | .done => s
  | .panicked => s

/-- One step of the whole system. The Ctrl-C handler is
`move || r.store(false, SeqCst)`: its only effect is clearing the flag. -/
def step (E : Ext) (a : Args) (s : SysState) : Cmd → SysState
  | .work i k writeOk =>
      match s.workers[i]? with
      | some p => workerStep E a s i p k writeOk
      | none => s
  | .interrupt => { s with running := false }

/-- Run a whole schedule. -/
def run (E : Ext) (a : Args) (s : SysState) : List Cmd → SysState
  | [] => s
  | c :: cs => run E a (step E a s c) cs

/-- The state set up by `main` before the monitor loop: flag true, counter
zero, no files written, `n` workers at loop entry. -/
def initState (n : Nat) : SysState :=
  { running := true, counter := 0, writes := [], workers := List.replicate n .atCheck }

/-- Whether a command executes a `COUNTER.fetch_add(1)` in state `s`
(the command drives a worker standing at `atIncr`): 1 if so, else 0. -/
def isIncrStep (s : SysState) : Cmd → Nat
  | .work i _ _ =>
      match s.workers[i]? with
      | some .atIncr => 1
      | _ => 0
  | .interrupt => 0

/-- Number of `COUNTER.fetch_add(1)` executions — generation attempts —
performed along a schedule. -/
def attempts (E : Ext) (a : Args) (s : SysState) : List Cmd → Nat
  | [] => 0
  | c :: cs => isIncrStep s c + attempts E a (step E a s c) cs

/-- Worker phases that neither write a file nor store to `running`
(everything except the write/store control points of the match branch). -/
def nonPersisting : Phase → Bool
  | .atWritePriv _ => false
  | .atWritePub _ => false
  | .atStore => false
  | _ => true

/-! ## The rate estimator and the monitor tick, over `ℝ` (modelling `f64`) -/

/-- `exp_moving_average` of `main.rs`:
`alpha = 1 - exp(-delta_time / time_window)`;
result `alpha * value + (1 - alpha) * old_value`. -/
noncomputable def exp_moving_average (value old_value delta_time time_window : ℝ) : ℝ :=
  let alpha := 1 - Real.exp (-delta_time / time_window)
  alpha * value + (1 - alpha) * old_value

/-- One iteration of the monitor loop of `main` acting on
`(avg_key_rate, old_counter)`: if `old_counter == 0` the smoothed rate is
seeded with the raw current counter; then
`exp_moving_average((current - old) as f64, avg_key_rate, elapsed, 5.0)`
is stored and `old_counter` becomes the current counter. -/
noncomputable def monitorTick (old_counter : Int) (avg_key_rate : ℝ)
    (current_counter : Int) (elapsed : ℝ) : ℝ × Int :=
  let seeded := if old_counter = 0 then (current_counter : ℝ) else avg_key_rate
  (exp_moving_average ((current_counter - old_counter : Int) : ℝ) seeded elapsed 5,
    current_counter)

/-! ## The start-up phase of `main` -/

/-- Outcome of `main`'s start-up: either the process already exited (with an
exit code, a diagnostic on stderr, the files written so far and the number of
workers spawned so far), or the search was launched with a compiled matcher
and the initial shared state. -/
inductive MainResult where
  | exited : Nat → String → List (String × String) → Nat → MainResult
  | launched : (String → Bool) → SysState → MainResult

/-- The start-up phase of `main`: build the pattern string, compile it
(`compile` stands for `Regex::new`); on error print
`Invalid regex pattern: {e}` and exit with code 1 — before the Ctrl-C
handler is installed and before any worker thread is spawned, with no file
written; on success launch `numThreads` workers on the initial state. -/
def mainSetup (compile : String → Except String (String → Bool))
    (a : Args) (numThreads : Nat) : MainResult :=
  match compile (regex_str a) with
  | .error e => .exited 1 ("Invalid regex pattern: " ++ e) [] 0
  | .ok rm => .launched rm (initState numThreads)

/-! ## Concrete instances used to evaluate the model -/

/-- A concrete all-zero public key. -/
def k0 : Key := List.replicate 32 0

/-- Concrete external collaborators: a stand-in digest of the correct
length, a pattern that matches everything (`.*`), and a stand-in
private-key serialization. -/
def E0 : Ext :=
  { sha256 := fun _ => List.replicate 32 0
    rmatch := fun _ => true
    privEncode := fun _ => "OPENSSH-PRIVATE-KEY" }

/-- Non-streaming, public-key-mode arguments. -/
def a1 : Args := { regex := ".*", insensitive := false, streaming := false, fingerprint := false }

/-- Streaming, public-key-mode arguments. -/
def a2 : Args := { regex := ".*", insensitive := false, streaming := true, fingerprint := false }

/-- A schedule in which two workers find matches simultaneously: both pass
the `running` check and the match test before either reaches the store, then
both run the persist-and-store sequence to completion. -/
def cmdsDouble : List Cmd :=
  [.work 0 k0 true, .work 1 k0 true,
   .work 0 k0 true, .work 1 k0 true,
   .work 0 k0 true, .work 1 k0 true,
   .work 0 k0 true, .work 1 k0 true,
   .work 0 k0 true, .work 1 k0 true,
   .work 0 k0 true, .work 1 k0 true]

/-- A schedule in which worker 0 matches and its private-key write fails
(the `expect` panics, killing only that thread), after which worker 1 keeps
iterating. -/
def cmdsPanic : List Cmd :=
  [.work 0 k0 true, .work 0 k0 true, .work 0 k0 true, .work 0 k0 false,
   .work 1 k0 true, .work 1 k0 true]

/-- A streaming schedule with a match: worker 0 checks, increments,
matches, and loops back to the check. -/
def cmdsStream : List Cmd :=
  [.work 0 k0 true, .work 0 k0 true, .work 0 k0 true, .work 0 k0 true, .work 0 k0 true]

/-- A single-worker state standing at the counter increment. -/
def sIncr : SysState :=
  { running := true, counter := 0, writes := [], workers := [.atIncr, .atCheck] }

/-- A stand-in for `Regex::new` on a pattern that fails to compile. -/
def badCompile : String → Except String (String → Bool) :=
  fun _ => .error "unclosed group"

/-- The arguments of the spec's invalid-pattern scenario. -/
def aBad : Args :=
  { regex := "(unclosed", insensitive := false, streaming := false, fingerprint := false }

/-! ## Helper lemmas -/

lemma wrapI64_eq {x : Int} (h1 : -(2 ^ 63) ≤ x) (h2 : x < 2 ^ 63) : wrapI64 x = x := by
  unfold wrapI64
  omega

lemma isIncrStep_eq_zero_or_one (s : SysState) (c : Cmd) :
    isIncrStep s c = 0 ∨ isIncrStep s c = 1 := by
  cases c with
  | interrupt => left; rfl
  | work i k ok =>
    rcases h : s.workers[i]? with _ | p
    · left; simp [isIncrStep, h]
    · cases p <;> simp [isIncrStep, h]

lemma step_counter (E : Ext) (a : Args) (s : SysState) (c : Cmd) :
    (step E a s c).counter =
      if isIncrStep s c = 1 then wrapI64 (s.counter + 1) else s.counter := by
  cases c with
  | interrupt => simp [step, isIncrStep]
  | work i k ok =>
    rcases h : s.workers[i]? with _ | p
    · simp [step, h, isIncrStep]
    · cases p <;>
        simp only [step, h, isIncrStep, workerStep, setW] <;>
        first
          | rfl
          | (split <;> first | rfl | (split <;> rfl))

lemma run_counter (E : Ext) (a : Args) :
    ∀ (cmds : List Cmd) (s : SysState), -(2 ^ 63) ≤ s.counter →
      s.counter + (attempts E a s cmds : Int) < 2 ^ 63 →
      (run E a s cmds).counter = s.counter + (attempts E a s cmds : Int) := by
  intro cmds
  induction cmds with
  | nil => intro s _ _; simp [run, attempts]
  | cons c cs ih =>
    intro s h1 h2
    simp only [attempts] at h2 ⊢
    simp only [run]
    have hsc := step_counter E a s c
    rcases isIncrStep_eq_zero_or_one s c with h0 | hone
    · rw [h0] at h2 ⊢
      rw [if_neg (by omega)] at hsc
      rw [ih (step E a s c) (by rw [hsc]; exact h1)
        (by rw [hsc]; push_cast at h2 ⊢; omega), hsc]
      push_cast at h2 ⊢
      omega
    · rw [hone] at h2 hsc ⊢
      rw [if_pos rfl] at hsc
      have hw : wrapI64 (s.counter + 1) = s.counter + 1 := by
        apply wrapI64_eq
        · omega
        · push_cast at h2; omega
      rw [ih (step E a s c) (by rw [hsc, hw]; omega)
        (by rw [hsc, hw]; push_cast at h2 ⊢; omega), hsc, hw]
      push_cast
      ring

lemma step_running_mono (E : Ext) (a : Args) (s : SysState) (c : Cmd) :
    (step E a s c).running = true → s.running = true := by
  cases c with
  | interrupt => simp [step]
  | work i k ok =>
    rcases h : s.workers[i]? with _ | p
    · simp [step, h]
    · cases p <;>
        simp only [step, h, workerStep, setW] <;>
        first
          | (intro hx; exact hx)
          | simp
          | (split <;> first | (intro hx; exact hx) | simp | (split <;> intro hx <;> exact hx))

lemma run_running_false (E : Ext) (a : Args) :
    ∀ (cmds : List Cmd) (s : SysState), s.running = false →
      (run E a s cmds).running = false := by
  intro cmds
  induction cmds with
  | nil => intro s h; simpa [run] using h
  | cons c cs ih =>
    intro s h
    simp only [run]
    apply ih
    by_contra hx
    have : (step E a s c).running = true := by
      cases hb : (step E a s c).running
      · exact absurd hb hx
      · rfl
    rw [step_running_mono E a s c this] at h
    cases h

lemma forall_nonPersisting_set {s : SysState} (hw : ∀ p ∈ s.workers, nonPersisting p = true)
    {i : Nat} {q : Phase} (hq : nonPersisting q = true) :
    ∀ p ∈ s.workers.set i q, nonPersisting p = true := by
  intro p hp
  rcases List.mem_or_eq_of_mem_set hp with h | rfl
  · exact hw p h
  · exact hq

lemma streaming_step (E : Ext) (a : Args) (hs : a.streaming = true) (s : SysState)
    (hw : ∀ p ∈ s.workers, nonPersisting p = true) (i : Nat) (k : Key) (ok : Bool) :
    (step E a s (.work i k ok)).writes = s.writes ∧
    (step E a s (.work i k ok)).running = s.running ∧
    ∀ p ∈ (step E a s (.work i k ok)).workers, nonPersisting p = true := by
  rcases h : s.workers[i]? with _ | p
  · simp only [step, h]
    exact ⟨by trivial, by trivial, hw⟩
  · have hp : nonPersisting p = true := hw p (List.getElem?_mem h)
    cases p with
    | atCheck =>
      simp only [step, h, workerStep]
      split
      · exact ⟨by trivial, by trivial, forall_nonPersisting_set hw rfl⟩
      · exact ⟨by trivial, by trivial, forall_nonPersisting_set hw rfl⟩
    | atIncr =>
      simp only [step, h, workerStep]
      exact ⟨by trivial, by trivial, forall_nonPersisting_set hw rfl⟩
    | atGen =>
      simp only [step, h, workerStep, hs, if_true]
      split
      · exact ⟨by trivial, by trivial, forall_nonPersisting_set hw rfl⟩
      · exact ⟨by trivial, by trivial, forall_nonPersisting_set hw rfl⟩
    | atWritePriv k1 => simp [nonPersisting] at hp
    | atWritePub k1 => simp [nonPersisting] at hp
    | atStore => simp [nonPersisting] at hp
    | done =>
      simp only [step, h, workerStep]
      exact ⟨by trivial, by trivial, hw⟩
    | panicked =>
      simp only [step, h, workerStep]
      exact ⟨by trivial, by trivial, hw⟩

lemma base64Chunks_length (l : List Nat) :
    (base64Chunks l).length = 4 * ((l.length + 2) / 3) := by
  induction l using base64Chunks.induct with
  | case1 => rfl
  | case2 b1 => simp [base64Chunks]
  | case3 b1 b2 => simp [base64Chunks]
  | case4 b1 b2 b3 rest ih =>
    simp only [base64Chunks, List.length_cons, ih]
    omega

lemma base64Chunks_getLast (l : List Nat) (h : l.length % 3 = 2) :
    (base64Chunks l).getLast? = some '=' := by
  induction l using base64Chunks.induct with
  | case1 => simp at h
  | case2 b1 => simp at h
  | case3 b1 b2 => simp [base64Chunks]
  | case4 b1 b2 b3 rest ih =>
    have hr : rest.length % 3 = 2 := by
      simp only [List.length_cons] at h
      omega
    show (([b64Char (b1 / 4), b64Char (b1 % 4 * 16 + b2 / 16),
        b64Char (b2 % 16 * 4 + b3 / 64), b64Char (b3 % 64)] : List Char)
        ++ base64Chunks rest).getLast? = some '='
    rw [List.getLast?_append, ih hr]
    rfl

lemma authorized_key_data (k : Key) :
    (get_authorized_key k).data =
      "ssh-ed25519 ".data ++ base64Chunks (ed25519KeyBlob k)
        ++ " Generated by SSHChic".data := by
  simp [get_authorized_key, base64Encode, String.data_append]

/-! ## Claims -/

/-- C4: the rate estimator computes
`new = weight * value + (1 - weight) * old` with
`weight = 1 - exp(-elapsed / time_window)`; for non-negative `elapsed`,
`value`, `old_value` and positive `time_window` the output lies between
`old_value` and `value` inclusive, equals `old_value` exactly at
`elapsed = 0`, and tends to `value` as `elapsed → ∞`. -/
theorem C4_rate_estimator (value old_value elapsed tw : ℝ)
    (hv : 0 ≤ value) (ho : 0 ≤ old_value) (he : 0 ≤ elapsed) (htw : 0 < tw) :
    (min old_value value ≤ exp_moving_average value old_value elapsed tw ∧
      exp_moving_average value old_value elapsed tw ≤ max old_value value) ∧
    exp_moving_average value old_value 0 tw = old_value ∧
    Filter.Tendsto (fun e => exp_moving_average value old_value e tw)
      Filter.atTop (nhds value) := by
  have hE1 : Real.exp (-elapsed / tw) ≤ 1 :=
    Real.exp_le_one_iff.mpr (div_nonpos_of_nonpos_of_nonneg (neg_nonpos.mpr he) htw.le)
  have hE0 : 0 < Real.exp (-elapsed / tw) := Real.exp_pos _
  refine ⟨⟨?_, ?_⟩, ?_, ?_⟩
  · have h1 : min old_value value ≤ value := min_le_right _ _
    have h2 : min old_value value ≤ old_value := min_le_left _ _
    simp only [exp_moving_average]
    nlinarith [mul_nonneg (sub_nonneg.mpr hE1) (sub_nonneg.mpr h1),
      mul_nonneg hE0.le (sub_nonneg.mpr h2)]
  · have h1 : value ≤ max old_value value := le_max_right _ _
    have h2 : old_value ≤ max old_value value := le_max_left _ _
    simp only [exp_moving_average]
    nlinarith [mul_nonneg (sub_nonneg.mpr hE1) (sub_nonneg.mpr h1),
      mul_nonneg hE0.le (sub_nonneg.mpr h2)]
  · simp [exp_moving_average]
  · have hfun : (fun e => exp_moving_average value old_value e tw)
        = fun e => value + Real.exp (-e / tw) * (old_value - value) := by
      funext e
      simp only [exp_moving_average]
      ring
    rw [hfun]
    have h1 : Filter.Tendsto (fun e : ℝ => -e / tw) Filter.atTop Filter.atBot := by
      have hd : Filter.Tendsto (fun e : ℝ => e / tw) Filter.atTop Filter.atTop :=
        Filter.tendsto_id.atTop_div_const htw
      have h2 := Filter.tendsto_neg_atTop_atBot.comp hd
      simpa only [Function.comp_def, neg_div] using h2
    have h2 : Filter.Tendsto (fun e : ℝ => Real.exp (-e / tw)) Filter.atTop (nhds 0) :=
      Real.tendsto_exp_atBot.comp h1
    have h3 := Filter.Tendsto.const_add value (h2.mul_const (old_value - value))
    simpa using h3

/-- Witness for C4 at `value = 1`, `old_value = 1`, `elapsed = 1`,
`time_window = 1`. -/
theorem C4_rate_estimator_witness :
    (0 : ℝ) ≤ 1 ∧ (0 : ℝ) ≤ 1 ∧ (0 : ℝ) ≤ 1 ∧ (0 : ℝ) < 1 ∧
    ((min (1 : ℝ) 1 ≤ exp_moving_average 1 1 1 1 ∧
        exp_moving_average 1 1 1 1 ≤ max (1 : ℝ) 1) ∧
      exp_moving_average 1 1 0 1 = 1 ∧
      Filter.Tendsto (fun e => exp_moving_average 1 1 e 1)
        Filter.atTop (nhds 1)) :=
  ⟨zero_le_one, zero_le_one, zero_le_one, zero_lt_one,
    C4_rate_estimator 1 1 1 1 zero_le_one zero_le_one zero_le_one zero_lt_one⟩

/-- C7: if the pattern fails to compile, `main` prints the diagnostic and
exits with code 1 before any worker is spawned, with no file written and no
partial state created. -/
theorem C7_invalid_pattern_exits_early
    (compile : String → Except String (String → Bool)) (a : Args) (n : Nat)
    (e : String) (h : compile (regex_str a) = .error e) :
    mainSetup compile a n = .exited 1 ("Invalid regex pattern: " ++ e) [] 0 := by
  simp [mainSetup, h]

/-- Witness for C7 on the spec's scenario pattern `"(unclosed"`. -/
theorem C7_invalid_pattern_exits_early_witness :
    badCompile (regex_str aBad) = .error "unclosed group" ∧
    mainSetup badCompile aBad 8 =
      .exited 1 ("Invalid regex pattern: " ++ "unclosed group") [] 0 :=
  ⟨rfl, C7_invalid_pattern_exits_early badCompile aBad 8 "unclosed group" rfl⟩

/-- C8: on a monitor tick whose previous counter sample is 0 the smoothed
rate ends up seeded with the raw instantaneous counter value; on every other
tick it is the rate estimator applied to the delta and the elapsed time with
a 5-second time constant; in both cases the previous sample becomes the
current counter. -/
theorem C8_monitor_tick (old_counter current : Int) (avg elapsed : ℝ)
    (h : old_counter ≠ 0) :
    (monitorTick 0 avg current elapsed).1 = (current : ℝ) ∧
    (monitorTick 0 avg current elapsed).2 = current ∧
    (monitorTick old_counter avg current elapsed).1 =
      exp_moving_average ((current - old_counter : Int) : ℝ) avg elapsed 5 ∧
    (monitorTick old_counter avg current elapsed).2 = current := by
  refine ⟨?_, rfl, ?_, rfl⟩
  · simp only [monitorTick, if_true]
    simp only [exp_moving_average]
    push_cast
    ring
  · simp only [monitorTick]
    rw [if_neg h]

/-- Witness for C8 at `old_counter = 1`, `current = 7`, `avg = 3`,
`elapsed = 2`. -/
theorem C8_monitor_tick_witness :
    (1 : Int) ≠ 0 ∧
    ((monitorTick 0 3 7 2).1 = ((7 : Int) : ℝ) ∧
      (monitorTick 0 3 7 2).2 = 7 ∧
      (monitorTick 1 3 7 2).1 =
        exp_moving_average (((7 : Int) - 1 : Int) : ℝ) 3 2 5 ∧
      (monitorTick 1 3 7 2).2 = 7) :=
  ⟨by decide, C8_monitor_tick 1 7 3 2 (by decide)⟩

/-- C9: every authorized-key line starts with the fixed 12-character
`ssh-ed25519 ` (the same for every key), ends with the fixed comment
`Generated by SSHChic`, and in particular never starts with `A`, so a
start-anchored pattern like `^A` can only ever see the fixed algorithm
prefix and never matches. -/
theorem C9_authorized_key_shape (k : Key) :
    (get_authorized_key k).data.take 12 = "ssh-ed25519 ".data ∧
    (∃ t, (get_authorized_key k).data = t ++ "Generated by SSHChic".data) ∧
    (∀ t, (get_authorized_key k).data ≠ 'A' :: t) ∧
    (∀ k' : Key, (get_authorized_key k').data.take 12
      = (get_authorized_key k).data.take 12) := by
  have htake : ∀ k' : Key, (get_authorized_key k').data.take 12 = "ssh-ed25519 ".data := by
    intro k'
    rw [authorized_key_data, List.append_assoc]
    exact List.take_left' (by decide)
  refine ⟨htake k, ?_, ?_, fun k' => (htake k').trans (htake k).symm⟩
  · refine ⟨"ssh-ed25519 ".data ++ base64Chunks (ed25519KeyBlob k) ++ [' '], ?_⟩
    rw [authorized_key_data]
    have hsp : (" Generated by SSHChic".data : List Char)
        = [' '] ++ "Generated by SSHChic".data := by decide
    rw [hsp]
    simp [List.append_assoc]
  · intro t ht
    rw [authorized_key_data] at ht
    have hsd : ("ssh-ed25519 ".data : List Char) = 's' :: "sh-ed25519 ".data := by decide
    rw [hsd] at ht
    simp only [List.cons_append] at ht
    have h1 : 's' = 'A' := ((List.cons.injEq _ _ _ _).mp ht).1
    exact absurd h1 (by decide)

/-- Witness for C9: the shape facts evaluated at the all-zero key. -/
theorem C9_authorized_key_shape_witness :
    (get_authorized_key k0).data.take 12 = "ssh-ed25519 ".data ∧
    (∃ t, (get_authorized_key k0).data = t ++ "Generated by SSHChic".data) ∧
    (∀ t, (get_authorized_key k0).data ≠ 'A' :: t) ∧
    (∀ k' : Key, (get_authorized_key k').data.take 12
      = (get_authorized_key k0).data.take 12) :=
  C9_authorized_key_shape k0

/-- C10: the fingerprint is the standard base64, with `=` padding, of the
SHA-256 digest (32 bytes) of the raw public key: it is always 44 characters
long and always ends in `=`. -/
theorem C10_fingerprint_shape (E : Ext)
    (h : ∀ bs, (E.sha256 bs).length = 32) (k : Key) :
    (get_fingerprint E k).length = 44 ∧
    (get_fingerprint E k).data.getLast? = some '=' := by
  constructor
  · show (base64Chunks (E.sha256 k)).length = 44
    rw [base64Chunks_length, h]
  · show (base64Chunks (E.sha256 k)).getLast? = some '='
    exact base64Chunks_getLast _ (by rw [h])

/-- Witness for C10 with the 32-byte stand-in digest of `E0`. -/
theorem C10_fingerprint_shape_witness :
    (∀ bs, (E0.sha256 bs).length = 32) ∧
    ((get_fingerprint E0 k0).length = 44 ∧
      (get_fingerprint E0 k0).data.getLast? = some '=') :=
  ⟨fun _ => rfl, C10_fingerprint_shape E0 (fun _ => rfl) k0⟩

/-- C3: the final counter value equals the exact number of generation
attempts performed along any interleaving (no lost updates, as long as the
`i64` does not overflow); each attempt is one atomic `fetch_add(1)` whose
only effect is the increment and moving that worker to generating exactly
one keypair; and the match test is against the fingerprint when the config
selects fingerprint matching, against the authorized-key line otherwise. -/
theorem C3_counter_counts_every_attempt (E : Ext) (a : Args) (s : SysState)
    (cmds : List Cmd) (i : Nat) (k : Key) (ok : Bool)
    (hlo : -(2 ^ 63) ≤ s.counter)
    (hhi : s.counter + (attempts E a s cmds : Int) < 2 ^ 63) :
    (run E a s cmds).counter = s.counter + (attempts E a s cmds : Int) ∧
    (s.workers[i]? = some Phase.atIncr →
      step E a s (.work i k ok) =
        { setW s i Phase.atGen with counter := wrapI64 (s.counter + 1) }) ∧
    matchedKey E a k =
      (if a.fingerprint then E.rmatch (get_fingerprint E k)
       else E.rmatch (get_authorized_key k)) := by
  refine ⟨run_counter E a cmds s hlo hhi, ?_, rfl⟩
  intro h
  simp [step, h, workerStep]

/-- Witness for C3: one worker standing at the increment performs one
attempt and the counter lands exactly on it. -/
theorem C3_counter_counts_every_attempt_witness :
    -(2 ^ 63) ≤ sIncr.counter ∧
    sIncr.counter + (attempts E0 a1 sIncr [Cmd.work 0 k0 true] : Int) < 2 ^ 63 ∧
    ((run E0 a1 sIncr [Cmd.work 0 k0 true]).counter
        = sIncr.counter + (attempts E0 a1 sIncr [Cmd.work 0 k0 true] : Int) ∧
      (sIncr.workers[0]? = some Phase.atIncr →
        step E0 a1 sIncr (.work 0 k0 true) =
          { setW sIncr 0 Phase.atGen with counter := wrapI64 (sIncr.counter + 1) }) ∧
      matchedKey E0 a1 k0 =
        (if a1.fingerprint then E0.rmatch (get_fingerprint E0 k0)
         else E0.rmatch (get_authorized_key k0))) :=
  ⟨by decide, by decide,
    C3_counter_counts_every_attempt E0 a1 sIncr [Cmd.work 0 k0 true] 0 k0 true
      (by decide) (by decide)⟩

/-- C5: with the streaming flag set, no worker action ever appends to the
file-write log or changes the `running` flag, along any interleaving of any
length and with any number of matches; workers never even reach a
write/store control point. -/
theorem C5_streaming_never_persists (E : Ext) (a : Args) (hs : a.streaming = true)
    (cmds : List Cmd) (s : SysState)
    (hw : ∀ p ∈ s.workers, nonPersisting p = true)
    (hni : Cmd.interrupt ∉ cmds) :
    (run E a s cmds).writes = s.writes ∧
    (run E a s cmds).running = s.running ∧
    ∀ p ∈ (run E a s cmds).workers, nonPersisting p = true := by
  induction cmds generalizing s with
  | nil => exact ⟨rfl, rfl, hw⟩
  | cons c cs ih =>
    have hni' : Cmd.interrupt ∉ cs := fun hmem => hni (List.mem_cons_of_mem c hmem)
    cases c with
    | interrupt => exact absurd (List.mem_cons_self _ _) hni
    | work i k ok =>
      have hstep := streaming_step E a hs s hw i k ok
      have := ih (step E a s (.work i k ok)) hstep.2.2 hni'
      exact ⟨this.1.trans hstep.1, this.2.1.trans hstep.2.1, this.2.2⟩

/-- Witness for C5: a streaming run in which the single worker matches and
keeps looping; nothing is written and the flag stays true. -/
theorem C5_streaming_never_persists_witness :
    a2.streaming = true ∧
    (∀ p ∈ (initState 1).workers, nonPersisting p = true) ∧
    Cmd.interrupt ∉ cmdsStream ∧
    ((run E0 a2 (initState 1) cmdsStream).writes = (initState 1).writes ∧
      (run E0 a2 (initState 1) cmdsStream).running = (initState 1).running ∧
      ∀ p ∈ (run E0 a2 (initState 1) cmdsStream).workers, nonPersisting p = true) :=
  ⟨rfl, by decide, by decide,
    C5_streaming_never_persists E0 a2 rfl cmdsStream (initState 1) (by decide) (by decide)⟩

/-- C6: the `running` flag starts true; no step of any component ever turns
it from false to true (every store to it writes false), so once false it
stays false for the rest of any run; and the interrupt handler's step has no
effect other than clearing the flag. -/
theorem C6_running_flag_monotone (n : Nat) (E : Ext) (a : Args) (s : SysState)
    (c : Cmd) (cmds : List Cmd) :
    (initState n).running = true ∧
    ((step E a s c).running = true → s.running = true) ∧
    step E a s Cmd.interrupt = { s with running := false } ∧
    (s.running = false → (run E a s cmds).running = false) :=
  ⟨rfl, step_running_mono E a s c, rfl, run_running_false E a cmds s⟩

/-- A state whose flag has already been cleared. -/
def sStop : SysState :=
  { running := false, counter := 5, writes := [], workers := [.atCheck, .atGen] }

/-- Witness for C6: from a cleared state, a further schedule leaves the flag
false, and the interrupt step only clears the flag. -/
theorem C6_running_flag_monotone_witness :
    (initState 2).running = true ∧
    step E0 a1 sStop Cmd.interrupt = { sStop with running := false } ∧
    sStop.running = false ∧
    (run E0 a1 sStop [Cmd.work 0 k0 true, Cmd.work 1 k0 true]).running = false :=
  ⟨(C6_running_flag_monotone 2 E0 a1 sStop Cmd.interrupt []).1,
    (C6_running_flag_monotone 2 E0 a1 sStop Cmd.interrupt []).2.2.1,
    rfl,
    (C6_running_flag_monotone 2 E0 a1 sStop Cmd.interrupt
      [Cmd.work 0 k0 true, Cmd.work 1 k0 true]).2.2.2 rfl⟩

/-- C1 fails on the code: `find_ssh_keys` clears `running` with an
unconditional `store`, not a compare-and-swap, and it writes the two files
before touching the flag at all. In the interleaving `cmdsDouble`, both
workers pass the loop check and the match test before either stores, and
both then persist: four `fs::write` calls occur — two to `id_ed25519` and
two to `id_ed25519.pub`, i.e. two keypairs are written, not exactly one. -/
theorem C1_nonstreaming_double_write :
    (run E0 a1 (initState 2) cmdsDouble).writes.length = 4 ∧
    ((run E0 a1 (initState 2) cmdsDouble).writes.countP
      (fun w => w.1 == "id_ed25519")) = 2 ∧
    ((run E0 a1 (initState 2) cmdsDouble).writes.countP
      (fun w => w.1 == "id_ed25519.pub")) = 2 ∧
    (run E0 a1 (initState 2) cmdsDouble).running = false ∧
    (run E0 a1 (initState 2) cmdsDouble).workers = [Phase.done, Phase.done] := by
  decide

/-- C2 fails on the code: a failed `fs::write` makes the worker's `expect`
panic, which (with the default unwind panic strategy and `thread::spawn`)
kills only that thread; `running` is stored false only *after* the writes,
so it is still true, and the other workers keep iterating — here worker 1
performs a further counter increment after worker 0 has died, and the
monitor loop would spin forever on `running == true`. -/
theorem C2_write_failure_process_continues :
    (run E0 a1 (initState 2) cmdsPanic).workers = [Phase.panicked, Phase.atGen] ∧
    (run E0 a1 (initState 2) cmdsPanic).running = true ∧
    (run E0 a1 (initState 2) cmdsPanic).writes = [] ∧
    (run E0 a1 (initState 2) cmdsPanic).counter = 2 := by
  decide

end SSHChic
